import Mathlib

/-!
# UTXO organisms — a shallow embedding of the ORG1 protocol code

This file embeds the decode/encode logic of `scanner.cjs` and
`src/contracts/organism.ts`, the transaction builders of `claim.cjs` and
`fund.cjs`, and the lineage walker of `scanner.cjs`, and proves or refutes
the spec's claims about them.

Scripts are hexadecimal strings in the JavaScript source; we model a hex
string as a `List Nat` of hex digits (nibbles, each `< 16`), because the
scanner slices and searches at hex-character granularity (so an occurrence
of the protocol tag at an odd hex offset is a real possibility the model
must be able to express).
-/

namespace Org

/-- Numeric value of a run of hex digits, most significant first.
Mirrors JavaScript `parseInt(s, 16)` on a nonempty all-hex string.
(JS returns `NaN` on the empty string; the embedding returns 0 there, and
every place the difference could matter is handled explicitly at its use
site in `decodeOut` below.) -/
def hexVal (l : List Nat) : Nat := l.foldl (fun a d => 16 * a + d) 0

/-- JavaScript `s.slice(start, stop)` for nonnegative indices: clamps to the
available characters and yields the empty string when `stop ≤ start`. -/
def seg (l : List Nat) (start stop : Nat) : List Nat :=
  (l.drop start).take (stop - start)

/-- A byte as its two hex digits (`writeUInt8` / `int2ByteString(·, 1n)`). -/
def nib2 (n : Nat) : List Nat := [n / 16 % 16, n % 16]

/-- A 32-bit value as eight hex digits, little-endian byte order
(`Buffer.writeUInt32LE` in `claim.cjs` / `int2ByteString(·, 4n)` in
`organism.ts`). -/
def u32leNibs (g : Nat) : List Nat :=
  nib2 (g % 256) ++ nib2 (g / 256 % 256) ++ nib2 (g / 65536 % 256) ++
    nib2 (g / 16777216 % 256)

/-- `Buffer.from(hex).readUInt32LE(0)`: the first four bytes (eight hex
digits), little-endian.  Only consulted when at least eight digits are
present (`decodeOut` crashes first otherwise, as the JS does). -/
def readU32LE (l : List Nat) : Nat :=
  (16 * l.getD 0 0 + l.getD 1 0) +
    256 * (16 * l.getD 2 0 + l.getD 3 0) +
    65536 * (16 * l.getD 4 0 + l.getD 5 0) +
    16777216 * (16 * l.getD 6 0 + l.getD 7 0)

/-- The hex digits of the protocol tag `"ORG1"` = `4f524731`. -/
def orgTag : List Nat := [4, 15, 5, 2, 4, 7, 3, 1]

/-- `hex.indexOf('4f524731')` at hex-digit granularity: index of the first
occurrence of the tag, if any. -/
def findTagAux : List Nat → Nat → Option Nat
  | [], _ => none
  | l@(_ :: rest), i =>
    if orgTag.isPrefixOf l then some i else findTagAux rest (i + 1)

/-- The record returned by `decodeORG1` in `scanner.cjs`:
`{ type, generation, spawnTxid, payload }`.  `spawnTxid` and `payload` are
hex-digit strings, exactly as the JS returns them. -/
structure OrgRecord where
  type : Nat
  generation : Nat
  spawnTxid : List Nat
  payload : List Nat
  deriving DecidableEq, Repr

/-- Outcome of scanning one output script: the tag was not found (or the
minimum-length guard failed) and the loop continues with the next output;
a record was decoded; or the JS would throw (uncaught `RangeError` from
`readUInt32LE` on a buffer shorter than 4 bytes). -/
inductive ScanR where
  | notFound
  | found (r : OrgRecord)
  | crash
  deriving DecidableEq, Repr

/-- The per-output body of `decodeORG1` (`scanner.cjs` lines 36–66).

Transcribed step for step from the JS:
* `const idx = hex.indexOf('4f524731'); if (idx === -1) continue;`
* `const after = hex.slice(idx + 8);`
* `if (after.length < 2 + 2 + 8 + 2 + 64) continue;`  — note: `continue`,
  i.e. the same observable outcome as an absent tag, not an error.
* reads three pushes with `parseInt` on clamped slices.  Where the JS's
  `parseInt('')` would yield `NaN`:
  - for the generation push this always ends in `readUInt32LE` throwing,
    which the embedding reports as `.crash` via the `< 4`-bytes guard;
  - for the spawn-txid push the `NaN` positions make `spawnTxid` empty and
    `payload` the whole of `after` (`slice(NaN)` = `slice(0)`), which the
    embedding reproduces explicitly. -/
def decodeOut (hex : List Nat) : ScanR :=
  match findTagAux hex 0 with
  | none => .notFound
  | some idx =>
    let after := hex.drop (idx + 8)
    if after.length < 2 + 2 + 8 + 2 + 64 then .notFound
    else
      -- <01><type:1B>
      let typePushLen := hexVal (seg after 0 2)
      let typeVal := hexVal (seg after 2 (2 + typePushLen * 2))
      let pos2 := 2 + typePushLen * 2
      -- <04><gen:4B LE>
      let genPushLen := hexVal (seg after pos2 (pos2 + 2))
      let pos3 := pos2 + 2
      let genHex := seg after pos3 (pos3 + genPushLen * 2)
      if genHex.length / 2 < 4 then .crash
      else
        let generation := readU32LE genHex
        let pos4 := pos3 + genPushLen * 2
        -- <20><spawnTxid:32B>
        let spawnSlice := seg after pos4 (pos4 + 2)
        if spawnSlice.isEmpty then
          .found ⟨typeVal, generation, [], after⟩
        else
          let spawnPushLen := hexVal spawnSlice
          let pos5 := pos4 + 2
          let spawnTxid := seg after pos5 (pos5 + spawnPushLen * 2)
          let pos6 := pos5 + spawnPushLen * 2
          .found ⟨typeVal, generation, spawnTxid, after.drop pos6⟩

/-- `decodeORG1(tx)` over the transaction's outputs: each output carries an
optional script hex (`out.scriptPubKey?.hex`; `if (!hex) continue` also
skips an empty string).  The first output whose scan finds a record decides
the result; outputs whose scan "continues" are skipped; a crash aborts. -/
def decodeORG1 : List (Option (List Nat)) → ScanR
  | [] => .notFound
  | none :: rest => decodeORG1 rest
  | some hex :: rest =>
    if hex.isEmpty then decodeORG1 rest
    else
      match decodeOut hex with
      | .notFound => decodeORG1 rest
      | .found r => .found r
      | .crash => .crash

/-- The annotation script built by `organism.ts` (lines 90–99) and equally
by `bsv.Script.buildSafeDataOut([Buffer.from('ORG1'), typeBytes, genBytes,
spawnBytes])` in `spawn.cjs` / `claim.cjs` / `fund.cjs`:
`006a` `04` `4f524731` `01` type `04` generation-LE `20` spawnTxid. -/
def encodeORG1 (ty gen : Nat) (spawnTxid : List Nat) : List Nat :=
  [0, 0, 6, 10] ++ [0, 4] ++ orgTag ++ [0, 1] ++ nib2 ty ++ [0, 4] ++
    u32leNibs gen ++ [2, 0] ++ spawnTxid

/-- Modelled from the spec: the repository's encoders never emit a payload,
so the payload-carrying part of Encode is taken from §4.1 — "zero or more
additional length-prefixed pushes carrying `payload` verbatim. Each push is
length-prefixed with a single byte giving its byte count".  Each segment is
a hex-digit string of an ≤252-byte push. -/
def payloadPushes (segs : List (List Nat)) : List Nat :=
  segs.foldr (fun s acc => nib2 (s.length / 2) ++ s ++ acc) []

/-- Modelled from the spec: Encode of a record with payload pushes —
the code's fixed-field encoding followed by §4.1's payload pushes. -/
def encodeWithPayload (ty gen : Nat) (spawnTxid : List Nat)
    (segs : List (List Nat)) : List Nat :=
  encodeORG1 ty gen spawnTxid ++ payloadPushes segs

/-! ## Transaction builders (`claim.cjs`, `fund.cjs`, `organism.ts`) -/

/-- The immutable/stateful properties of an `Organism` contract instance
(`organism.ts` lines 31–52). -/
structure OrgState where
  organismType : Nat
  reward : Nat
  fee : Nat
  dustLimit : Nat
  spawnTxid : List Nat
  generation : Nat
  deriving DecidableEq, Repr

/-- An output's locking script, at the resolution the builders and the
covenant distinguish: an organism continuation carrying a contract state,
an OP_RETURN data script, or a pay-to-pubkey-hash to some address. -/
inductive Script where
  | organism (st : OrgState)
  | opret (dataHex : List Nat)
  | p2pkh (addr : Nat)
  deriving DecidableEq, Repr

/-- One resulting record: a locking script and a satoshi value.  The value
is an `Int` because `claim.cjs` happily writes `Number(nextBalance)` even
when `nextBalance` is negative. -/
structure TxRecord where
  script : Script
  value : Int
  deriving DecidableEq, Repr

/-- Is the record an organism continuation? -/
def TxRecord.isContinuation : TxRecord → Prop
  | ⟨.organism _, _⟩ => True
  | _ => False

instance (o : TxRecord) : Decidable o.isContinuation := by
  cases o with
  | mk s v => cases s <;> simp [TxRecord.isContinuation] <;> infer_instance

/-- The outputs built by `claim.cjs`'s bound tx builder (lines 135–177),
which the contract's `claim` method (`organism.ts` lines 71–110) recomputes
with the same arithmetic and byte layout:
`nextBalance = balance − reward − fee`; `alive = nextBalance >= dustLimit`;
if alive, output 0 is the continuation (`nextInstance` = same state with
`generation + 1`) carrying `nextBalance`; then the OP_RETURN annotation
with `generation + 1`, the unchanged type and the unchanged `spawnTxid`;
then the reward output paying `reward` satoshis to the claimer.
No check anywhere rejects a negative `nextBalance`. -/
def buildClaimTx (st : OrgState) (balance : Int) (claimer : Nat) :
    List TxRecord :=
  let nextBalance : Int := balance - st.reward - st.fee
  let alive : Bool := nextBalance ≥ (st.dustLimit : Int)
  let nextSt : OrgState := { st with generation := st.generation + 1 }
  (if alive then [⟨.organism nextSt, nextBalance⟩] else []) ++
    [⟨.opret (encodeORG1 st.organismType (st.generation + 1) st.spawnTxid), 0⟩,
     ⟨.p2pkh claimer, st.reward⟩]

/-- The argument guard of `fund.cjs` (lines 20–34):
`AMOUNT = parseInt(args.amount || '0'); if (!TXID || !AMOUNT) { …usage…;
process.exit(1); }`.  For a parsed numeric amount, `!AMOUNT` is true only
for `0` — a negative amount passes the guard. -/
def fundArgsRejected (txidPresent : Bool) (amount : Int) : Bool :=
  !txidPresent || amount == 0

/-- The outputs built by `fund.cjs`'s bound tx builder (lines 153–206):
output 0 is the organism with `newBalance = currentBalance + AMOUNT` and
the *unchanged* state (`organism.next()` with no generation increment);
output 1 is the OP_RETURN annotation with the unchanged generation; then,
if `changeForContract = (currentBalance + totalAvailable) − newBalance −
FEE > 546`, a change output back to the funder.  No reward output. -/
def buildFundTx (st : OrgState) (balance : Nat) (amount : Int)
    (totalAvailable : Nat) (feeArg : Int) (fundingAddr : Nat) :
    List TxRecord :=
  let newBalance : Int := (balance : Int) + amount
  let changeForContract : Int := ((balance : Int) + totalAvailable) - newBalance - feeArg
  let hasChange : Bool := changeForContract > 546
  [⟨.organism st, newBalance⟩,
   ⟨.opret (encodeORG1 st.organismType st.generation st.spawnTxid), 0⟩] ++
    (if hasChange then [⟨.p2pkh fundingAddr, changeForContract⟩] else [])

/-! ## Lineage walker (`scanner.cjs` lines 78–204)

Transaction identifiers are abstracted as `Nat`.  The external ledger-read
collaborator is a function from a txid to the data the walker consumes:
the outputs (`tx.vout`), the optional block height/time, and the result of
the `/tx/{txid}/0/spent` query (`none` both for "not spent" and for a
failed query, which the `try/catch` treats identically). -/

/-- One output as the walker sees it: `value` in satoshis (the walker's
`Math.round(out.value * 1e8)` of the API's BSV float), the first entry of
`scriptPubKey?.addresses` if present, and `scriptPubKey?.hex`. -/
structure VOut where
  value : Nat
  addr : Option Nat
  scriptHex : Option (List Nat)
  deriving DecidableEq, Repr

/-- A fetched transaction, plus the answer to the output-0 spend query. -/
structure TxData where
  vout : List VOut
  blockheight : Option Nat
  blocktime : Option Nat
  spent0 : Option Nat
  deriving DecidableEq, Repr

/-- The `claimer` field of an entry: the literal string `'spawn'`, a reward
address, or `'unknown'`. -/
inductive Claimer where
  | spawn
  | addr (a : Nat)
  | unknown
  deriving DecidableEq, Repr

/-- A persisted Generation Entry (`scanner.cjs` lines 141–152).  `org1` is
the decoded annotation or `null`; `fee` is an `Int` because
`prevBalance - balance - rewardSats` can go negative in JS. -/
structure Entry where
  generation : Nat
  txid : Nat
  balance : Nat
  claimer : Claimer
  reward : Nat
  fee : Int
  blockHeight : Option Nat
  blockTime : Option Nat
  alive : Bool
  spentBy : Option Nat
  org1 : Option OrgRecord
  deriving DecidableEq, Repr

/-- A default entry, for safe indexing in theorem statements. -/
def dEntry : Entry := ⟨0, 0, 0, .unknown, 0, 0, none, none, true, none, none⟩

/-- `getRewardAddress(tx)` (`scanner.cjs` lines 69–76): the last output
that has an address, else `'unknown'`. -/
def getRewardAddress (tx : TxData) : Claimer :=
  match tx.vout.reverse.find? (fun v => v.addr.isSome) with
  | some v =>
    match v.addr with
    | some a => .addr a
    | none => .unknown
  | none => .unknown

/-- Reward calculation (`scanner.cjs` lines 128–135): the sum of the values
of outputs 1… that have a positive value and an address list. -/
def rewardSum (vout : List VOut) : Nat :=
  (vout.drop 1).foldl
    (fun s v => if 0 < v.value ∧ v.addr.isSome then s + v.value else s) 0

/-- Totalization of the walker's use of `decodeORG1(tx)`: `org1 || null`.
(When `decodeOut` would throw, the JS walk aborts with an uncaught
exception before appending anything; none of the properties proved below
inspects the `org1` field, so the embedding records `none` there.) -/
def scanToOption : ScanR → Option OrgRecord
  | .found r => some r
  | _ => none

/-- One iteration's appended entry (`scanner.cjs` lines 117–152), given the
lineage so far (consulted as `lineage[generation - 1]` for the fee). -/
def mkEntry (lineage : List Entry) (cur gen : Nat) (tx : TxData) : Entry :=
  let isSpawn := gen = 0
  let balance := (tx.vout.getD 0 ⟨0, none, none⟩).value
  let claimer := if isSpawn then Claimer.spawn else getRewardAddress tx
  let rewardSats := if isSpawn then 0 else rewardSum tx.vout
  let prevBalance : Option Nat :=
    if 0 < gen then (lineage.get? (gen - 1)).map (·.balance) else none
  let feePaid : Int :=
    match prevBalance with
    | some pb => (pb : Int) - balance - rewardSats
    | none => 0
  { generation := gen, txid := cur, balance := balance, claimer := claimer,
    reward := rewardSats, fee := feePaid, blockHeight := tx.blockheight,
    blockTime := tx.blocktime, alive := true, spentBy := none,
    org1 := scanToOption (decodeORG1 (tx.vout.map (·.scriptHex))) }

/-- The mutation `entry.alive = false; entry.spentBy = spentInfo.txid`
applied when the spend query reports a successor (`scanner.cjs` 172–174). -/
def mkDead (e : Entry) (nxt : Nat) : Entry :=
  { e with alive := false, spentBy := some nxt }

/-- The `while (currentTxid)` loop (`scanner.cjs` lines 109–182), with a
fuel bound standing in for the unbounded chain walk: a failed fetch breaks
with the lineage so far; a spent output 0 appends the entry with
`alive = false` and `spentBy` set and advances; an unspent output 0
appends the entry with `alive = true` and stops. -/
def walkLoop (ledger : Nat → Option TxData) :
    Nat → List Entry → Nat → Nat → List Entry
  | 0, lineage, _, _ => lineage
  | fuel + 1, lineage, cur, gen =>
    match ledger cur with
    | none => lineage
    | some tx =>
      let e := mkEntry lineage cur gen tx
      match tx.spent0 with
      | some nxt =>
        walkLoop ledger fuel (lineage ++ [mkDead e nxt]) nxt (gen + 1)
      | none => lineage ++ [e]

/-- The sequence of txids the loop fetches, in order (`wocGet('/tx/…')`),
mirroring the loop control of `walkLoop` exactly. -/
def walkFetches (ledger : Nat → Option TxData) : Nat → Nat → List Nat
  | 0, _ => []
  | fuel + 1, cur =>
    cur ::
      match ledger cur with
      | none => []
      | some tx =>
        match tx.spent0 with
        | some nxt => walkFetches ledger fuel nxt
        | none => []

/-- The resume logic (`scanner.cjs` lines 88–104): from a cached lineage,
the starting lineage, txid and generation of the walk.
* empty cache → fresh walk from the spawn txid at generation 0;
* last cached entry has `spentBy` → keep everything, start at the
  successor with `last.generation + 1`;
* else if the last cached entry is `alive` → drop it, start at its own
  txid with its own generation (re-derive it);
* else → fresh walk (unreachable for walker-produced caches). -/
def resumeInit (cached : List Entry) (spawnTxid : Nat) :
    List Entry × Nat × Nat :=
  match cached.getLast? with
  | none => ([], spawnTxid, 0)
  | some last =>
    match last.spentBy with
    | some s => (cached, s, last.generation + 1)
    | none =>
      if last.alive then (cached.dropLast, last.txid, last.generation)
      else ([], spawnTxid, 0)

/-- `traceLineage(spawnTxid)` with the persisted cache made explicit. -/
def traceLineage (ledger : Nat → Option TxData) (fuel : Nat)
    (cached : List Entry) (spawnTxid : Nat) : List Entry :=
  let (lineage, startTxid, startGen) := resumeInit cached spawnTxid
  walkLoop ledger fuel lineage startTxid startGen

/-- The txids fetched by a (possibly resumed) trace. -/
def traceFetches (ledger : Nat → Option TxData) (fuel : Nat)
    (cached : List Entry) (spawnTxid : Nat) : List Nat :=
  walkFetches ledger fuel (resumeInit cached spawnTxid).2.1

/-! ## Concrete fixtures used by witnesses and counterexamples -/

/-- An all-zero 32-byte (64 hex digit) lineage-origin identifier. -/
def z64 : List Nat := List.replicate 64 0

end Org

namespace Org

/-! ## Codec lemmas -/

/-- `hex.indexOf('4f524731')` on a script that starts with the encoder's
fixed prefix `006a` `04` `4f524731` finds the tag at hex offset 6,
whatever follows. -/
theorem findTag_encode (rest : List Nat) :
    findTagAux ([0, 0, 6, 10, 0, 4, 4, 15, 5, 2, 4, 7, 3, 1] ++ rest) 0 = some 6 := by
  simp [findTagAux, orgTag, List.isPrefixOf]

/-- Scanning an encoded annotation followed by arbitrary extra hex: the
three fixed fields decode back, and everything after the 32-byte origin —
`extra`, byte for byte — lands in `payload`. -/
theorem decodeOut_encode (ty gen : Nat) (txid extra : List Nat)
    (hty : ty < 256) (hgen : gen < 4294967296) (htx : txid.length = 64) :
    decodeOut (encodeORG1 ty gen txid ++ extra) = .found ⟨ty, gen, txid, extra⟩ := by
  have henc : encodeORG1 ty gen txid ++ extra =
      [0, 0, 6, 10, 0, 4, 4, 15, 5, 2, 4, 7, 3, 1] ++
        (0 :: 1 :: (ty / 16 % 16) :: (ty % 16) :: 0 :: 4 ::
          (gen % 256 / 16 % 16) :: (gen % 256 % 16) ::
          (gen / 256 % 256 / 16 % 16) :: (gen / 256 % 256 % 16) ::
          (gen / 65536 % 256 / 16 % 16) :: (gen / 65536 % 256 % 16) ::
          (gen / 16777216 % 256 / 16 % 16) :: (gen / 16777216 % 256 % 16) ::
          2 :: 0 :: (txid ++ extra)) := by
    simp [encodeORG1, orgTag, nib2, u32leNibs]
  rw [henc]
  rw [decodeOut, findTag_encode]
  simp only [List.cons_append, List.nil_append, List.drop_succ_cons, List.drop_zero]
  have hlen : ¬((0 :: 1 :: (ty / 16 % 16) :: (ty % 16) :: 0 :: 4 ::
      (gen % 256 / 16 % 16) :: (gen % 256 % 16) ::
      (gen / 256 % 256 / 16 % 16) :: (gen / 256 % 256 % 16) ::
      (gen / 65536 % 256 / 16 % 16) :: (gen / 65536 % 256 % 16) ::
      (gen / 16777216 % 256 / 16 % 16) :: (gen / 16777216 % 256 % 16) ::
      2 :: 0 :: (txid ++ extra)).length < 2 + 2 + 8 + 2 + 64) := by
    simp [List.length_append, htx]
    omega
  rw [if_neg hlen]
  simp only [seg, hexVal, List.drop_succ_cons, List.drop_zero, List.take_succ_cons,
    List.take_zero, List.foldl_cons, List.foldl_nil, Nat.reduceMul, Nat.reduceAdd,
    Nat.reduceSub, Nat.reduceDiv, Nat.reduceMod, Nat.zero_add, Nat.mul_zero]
  norm_num [List.isEmpty]
  refine ⟨?_, ?_, ?_, ?_⟩
  · omega
  · simp only [readU32LE, List.getD_cons_zero, List.getD_cons_succ]
    omega
  · rw [← htx, List.take_left]
  · rw [← htx, List.drop_left]

/-! ## C3 — round-trip of the annotation codec -/

/-- **C3 (amended).** Decoding an encoded record returns the three fixed
fields intact, and a `payload` field equal to the appended payload-push
bytes verbatim — *including* each push's length prefix.  So
`Decode(Encode(r)) = r` holds exactly when `r`'s payload field is the raw
push-byte region; in particular it holds for every record with an empty
payload, but not when the payload field is the pushes' contents. -/
theorem C3_decode_encode (ty gen : Nat) (txid : List Nat)
    (segs : List (List Nat)) (hty : ty < 256) (hgen : gen < 4294967296)
    (htx : txid.length = 64) :
    decodeOut (encodeWithPayload ty gen txid segs) =
      .found ⟨ty, gen, txid, payloadPushes segs⟩ :=
  decodeOut_encode ty gen txid (payloadPushes segs) hty hgen htx

/-- Witness for C3: a concrete record (type 7, generation 300, all-zero
origin, no payload) decodes back from its own encoding. -/
theorem C3_decode_encode_witness :
    7 < 256 ∧ 300 < 4294967296 ∧ z64.length = 64 ∧
      decodeOut (encodeWithPayload 7 300 z64 []) =
        .found ⟨7, 300, z64, []⟩ := by
  refine ⟨by norm_num, by norm_num, by decide, ?_⟩
  have h := C3_decode_encode 7 300 z64 [] (by norm_num) (by norm_num) (by decide)
  simpa [payloadPushes] using h

/-- **C3 (counterexample).** The claim as stated — `Decode(Encode(r)) == r`
including the payload field — fails at the record with species 0,
generation 5, all-zero origin and the single one-byte payload push `ab`:
the decoded payload is `01ab` (the push's length prefix is kept), not
`ab`. -/
theorem C3_counterexample :
    decodeOut (encodeWithPayload 0 5 z64 [[10, 11]]) =
        .found ⟨0, 5, z64, [0, 1, 10, 11]⟩ ∧
      (OrgRecord.mk 0 5 z64 [0, 1, 10, 11]) ≠ ⟨0, 5, z64, [10, 11]⟩ := by
  constructor
  · have h := decodeOut_encode 0 5 z64 (payloadPushes [[10, 11]])
      (by norm_num) (by norm_num) (by decide)
    simpa [payloadPushes, nib2] using h
  · decide

/-! ## C4 — truncated tag regions -/

/-- **C4 (amended).** A tag region truncated to fewer than 39 bytes
(78 hex digits) after the tag makes the scanner skip that output — the
same observable `NotFound` (null) outcome as an absent tag.  There is no
`MalformedAnnotation` result. -/
theorem C4_truncated_notFound (hex : List Nat) (idx : Nat)
    (hfind : findTagAux hex 0 = some idx)
    (hshort : (hex.drop (idx + 8)).length < 78) :
    decodeOut hex = .notFound := by
  rw [decodeOut, hfind]
  exact if_pos (by omega)

/-- Witness for C4: the concrete Scenario-D script — OP_FALSE OP_RETURN,
the tag, then just the species push `01 00` — is short and decodes to
`NotFound`. -/
theorem C4_truncated_notFound_witness :
    findTagAux ([0, 0, 6, 10] ++ [0, 4] ++ orgTag ++ [0, 1, 0, 0]) 0 = some 6 ∧
      ((([0, 0, 6, 10] ++ [0, 4] ++ orgTag ++ [0, 1, 0, 0]).drop (6 + 8)).length < 78) ∧
      decodeOut ([0, 0, 6, 10] ++ [0, 4] ++ orgTag ++ [0, 1, 0, 0]) = .notFound :=
  ⟨by decide, by decide,
    C4_truncated_notFound _ 6 (by decide) (by decide)⟩

/-- **C4 (counterexample).** The claim as stated is false: on a transaction
whose tag region is truncated right after the species push, `decodeORG1`
returns the very same `NotFound` (null) it returns when the tag is absent,
not a distinct `MalformedAnnotation` failure. -/
theorem C4_counterexample :
    decodeORG1 [some ([0, 0, 6, 10] ++ [0, 4] ++ orgTag ++ [0, 1, 0, 0])] = .notFound ∧
      decodeORG1 [some [0, 0, 6, 10, 1, 2, 3]] = .notFound := by
  constructor <;> decide

/-! ## C10 — the decoder accepts the tag anywhere -/

/-- A script that merely contains the tag bytes: a single stray hex digit
`5`, then the tag at hex offset 1 (an *odd* offset — not byte aligned, and
with no whole byte, let alone a `04` push opcode, before it), followed by
bytes that happen to parse as three pushes. -/
def oddScript : List Nat :=
  5 :: (orgTag ++ [0, 1, 10, 10, 0, 4] ++ u32leNibs 99 ++ [2, 0] ++ z64)

/-- The record `decodeOut` extracts from `oddScript`. -/
def oddRec : OrgRecord := ⟨170, 99, z64, []⟩

/-- **C10.** The decoder accepts the protocol tag anywhere in an output
script: `oddScript` has the tag at hex offset 1 (odd, so not byte
aligned), does not start with OP_FALSE OP_RETURN, has no push opcode
before the tag — and still decodes to a record rather than `NotFound`;
and when two outputs both carry decodable tag regions, only the first
output's record is returned. -/
theorem C10_decoder_laxity :
    findTagAux oddScript 0 = some 1 ∧ 1 % 2 = 1 ∧
      oddScript.take 4 ≠ [0, 0, 6, 10] ∧
      decodeOut oddScript = .found oddRec ∧
      decodeORG1 [some oddScript, some (encodeORG1 1 1 z64)] = .found oddRec ∧
      decodeOut (encodeORG1 1 1 z64) = .found ⟨1, 1, z64, []⟩ ∧
      oddRec ≠ ⟨1, 1, z64, []⟩ := by
  refine ⟨by decide, by decide, by decide, by decide, by decide, by decide, by decide⟩

/-! ## C2, C5 — the Reproduce transition's resulting records -/

/-- The Scenario-A organism: type 0, reward 1000, fee 3000, dust 546,
all-zero origin, generation 0. -/
def stA : OrgState := ⟨0, 1000, 3000, 546, z64, 0⟩

/-- **C2 (counterexample).** The claim as stated is false: with balance
2000, reward 1000 and fee 3000, `nextBalance = −2000 < 0`, yet the
Reproduce operation does not fail — it produces resulting records, among
them the reward record of 1000 units. -/
theorem C2_counterexample :
    ((2000 : Int) - stA.reward - stA.fee < 0) ∧
      buildClaimTx stA 2000 42 ≠ [] ∧
      (TxRecord.mk (.p2pkh 42) 1000) ∈ buildClaimTx stA 2000 42 := by
  refine ⟨by decide, by decide, by decide⟩

/-- **C2 (amended).** No `InsufficientBalance` check exists.  When
`nextBalance = balance − reward − fee` is negative the operation proceeds
on the death path: `alive` is false (a negative balance is below the
nonnegative dust floor), so no continuation record is produced — but the
annotation record (with `generation + 1`) and the reward record of exactly
`reward` units are still produced. -/
theorem C2_amended (st : OrgState) (balance : Int) (claimer : Nat)
    (hneg : balance - st.reward - st.fee < 0) :
    (∀ o ∈ buildClaimTx st balance claimer, ¬ o.isContinuation) ∧
      ⟨.opret (encodeORG1 st.organismType (st.generation + 1) st.spawnTxid), 0⟩
        ∈ buildClaimTx st balance claimer ∧
      ⟨.p2pkh claimer, (st.reward : Int)⟩ ∈ buildClaimTx st balance claimer := by
  have halive : ¬ ((st.dustLimit : Int) ≤ balance - st.reward - st.fee) := by
    have : (0 : Int) ≤ st.dustLimit := Int.ofNat_nonneg _
    omega
  unfold buildClaimTx
  simp only [ge_iff_le, decide_eq_true_eq, halive, if_false, List.nil_append]
  refine ⟨?_, by simp, by simp⟩
  intro o ho
  rcases List.mem_cons.1 ho with h | h
  · subst h; simp [TxRecord.isContinuation]
  · rcases List.mem_singleton.1 h with rfl
    simp [TxRecord.isContinuation]

/-- Witness for C2: the counterexample input, pushed through the amended
theorem. -/
theorem C2_amended_witness :
    ((2000 : Int) - stA.reward - stA.fee < 0) ∧
      ((∀ o ∈ buildClaimTx stA 2000 42, ¬ o.isContinuation) ∧
        ⟨.opret (encodeORG1 stA.organismType (stA.generation + 1) stA.spawnTxid), 0⟩
          ∈ buildClaimTx stA 2000 42 ∧
        ⟨.p2pkh 42, (stA.reward : Int)⟩ ∈ buildClaimTx stA 2000 42) :=
  ⟨by decide, C2_amended stA 2000 42 (by decide)⟩

/-- **C5.** For a legal Reproduce (`nextBalance ≥ 0`): when
`nextBalance ≥ dustFloor` the first resulting record is the continuation
carrying exactly `nextBalance` with `generation + 1`; when
`nextBalance < dustFloor` no continuation record is produced; in both
cases the result contains the annotation record with `generation + 1`,
unchanged species and lineage origin, and the reward record of exactly
`reward` units. -/
theorem C5_claim_records (st : OrgState) (balance : Int) (claimer : Nat)
    (hlegal : 0 ≤ balance - st.reward - st.fee) :
    ((st.dustLimit : Int) ≤ balance - st.reward - st.fee →
        (buildClaimTx st balance claimer).head? =
          some ⟨.organism { st with generation := st.generation + 1 },
                balance - st.reward - st.fee⟩) ∧
      (balance - st.reward - st.fee < (st.dustLimit : Int) →
        ∀ o ∈ buildClaimTx st balance claimer, ¬ o.isContinuation) ∧
      ⟨.opret (encodeORG1 st.organismType (st.generation + 1) st.spawnTxid), 0⟩
        ∈ buildClaimTx st balance claimer ∧
      ⟨.p2pkh claimer, (st.reward : Int)⟩ ∈ buildClaimTx st balance claimer := by
  unfold buildClaimTx
  by_cases h : (st.dustLimit : Int) ≤ balance - st.reward - st.fee
  · refine ⟨fun _ => ?_, fun hlt => absurd h (not_le.2 hlt), ?_, ?_⟩ <;>
      simp [h]
  · refine ⟨fun hle => absurd hle h, fun _ o ho => ?_, ?_, ?_⟩
    · simp only [ge_iff_le, decide_eq_true_eq, h, if_false,
        List.nil_append] at ho
      rcases List.mem_cons.1 ho with h' | h'
      · subst h'; simp [TxRecord.isContinuation]
      · rcases List.mem_singleton.1 h' with rfl
        simp [TxRecord.isContinuation]
    · simp [h]
    · simp [h]

/-- Witness for C5: Scenario A — balance 100000, reward 1000, fee 3000,
dust 546 yield continuation value 96000 at generation 1 and a reward
record of 1000. -/
theorem C5_claim_records_witness :
    ((0 : Int) ≤ 100000 - stA.reward - stA.fee) ∧
      (buildClaimTx stA 100000 42).head? =
        some ⟨.organism ⟨0, 1000, 3000, 546, z64, 1⟩, 96000⟩ ∧
      ⟨.p2pkh 42, (1000 : Int)⟩ ∈ buildClaimTx stA 100000 42 := by
  have h := C5_claim_records stA 100000 42 (by decide)
  exact ⟨by decide, (h.1 (by decide)).trans (by decide), h.2.2.2⟩

/-! ## C6, C7 — the Feed transition -/

/-- **C6.** The claim is right and the code is wrong: `fund.cjs`'s
argument guard `if (!TXID || !AMOUNT)` rejects only a zero amount, because
`!(-5)` is `false` in JavaScript.  A negative amount passes the guard and
the script goes on to build a feed whose output-0 value is *below* the
current balance — against the file's own description of feeding
("increase its balance"). -/
theorem C6_negative_amount_passes_guard :
    fundArgsRejected true (-5) = false ∧ ((-5 : Int) < 0) ∧
      fundArgsRejected true 0 = true ∧
      (buildFundTx stA 50000 (-5) 30000 3000 42).head? =
        some ⟨.organism stA, 49995⟩ ∧ ((49995 : Int) < 50000) := by
  refine ⟨by decide, by decide, by decide, by decide, by decide⟩

/-- **C7.** For a legal Feed (`amount > 0`) the resulting records are:
first the continuation carrying exactly `balance + amount` with the
organism state — generation, species and origin — unchanged, then the
annotation record with the unchanged generation; no reward record is
produced (the only pay-to-pubkey-hash output a feed can carry is the
funder's own change). -/
theorem C7_fund_records (st : OrgState) (balance : Nat) (amount : Int)
    (totalAvailable : Nat) (feeArg : Int) (fundingAddr : Nat)
    (hpos : 0 < amount) :
    (buildFundTx st balance amount totalAvailable feeArg fundingAddr).head? =
        some ⟨.organism st, (balance : Int) + amount⟩ ∧
      (buildFundTx st balance amount totalAvailable feeArg fundingAddr)[1]? =
        some ⟨.opret (encodeORG1 st.organismType st.generation st.spawnTxid), 0⟩ ∧
      (∀ o ∈ buildFundTx st balance amount totalAvailable feeArg fundingAddr,
        ∀ a v, o = ⟨.p2pkh a, v⟩ → a = fundingAddr) := by
  unfold buildFundTx
  by_cases h : ((balance : Int) + totalAvailable) - ((balance : Int) + amount) - feeArg > 546
  · refine ⟨by simp [h], by simp [h], ?_⟩
    intro o ho a v heq
    subst heq
    simp [TxRecord.mk.injEq] at ho
    exact ho.2.1
  · refine ⟨by simp [h], by simp [h], ?_⟩
    intro o ho a v heq
    subst heq
    simp [TxRecord.mk.injEq] at ho
    exact absurd ho.1 (by omega)

/-- The Scenario-C organism, caught mid-lineage at generation 7. -/
def st7 : OrgState := ⟨0, 1000, 3000, 546, z64, 7⟩

/-- Witness for C7: Scenario C — balance 50000 fed with 20000 yields a
continuation of 70000 with the generation still 7. -/
theorem C7_fund_records_witness :
    ((0 : Int) < 20000) ∧
      (buildFundTx st7 50000 20000 30000 3000 42).head? =
        some ⟨.organism st7, 70000⟩ ∧
      (buildFundTx st7 50000 20000 30000 3000 42)[1]? =
        some ⟨.opret (encodeORG1 0 7 z64), 0⟩ := by
  have h := C7_fund_records st7 50000 20000 30000 3000 42 (by decide)
  exact ⟨by decide, h.1.trans (by decide), h.2.1.trans (by decide)⟩

/-! ## Walker lemmas -/

/-- The loop only ever appends: whatever it starts from is kept as a
prefix of the result. -/
theorem walkLoop_prefix (ledger : Nat → Option TxData) :
    ∀ (fuel : Nat) (L : List Entry) (cur gen : Nat),
      ∃ rest, walkLoop ledger fuel L cur gen = L ++ rest := by
  intro fuel
  induction fuel with
  | zero => exact fun L cur gen => ⟨[], by simp [walkLoop]⟩
  | succ n ih =>
    intro L cur gen
    cases hf : ledger cur with
    | none => exact ⟨[], by simp [walkLoop, hf]⟩
    | some tx =>
      cases hs : tx.spent0 with
      | some nxt =>
        obtain ⟨rest, hr⟩ :=
          ih (L ++ [mkDead (mkEntry L cur gen tx) nxt]) nxt (gen + 1)
        refine ⟨mkDead (mkEntry L cur gen tx) nxt :: rest, ?_⟩
        simp only [walkLoop, hf, hs]
        simpa using hr
      | none =>
        refine ⟨[mkEntry L cur gen tx], ?_⟩
        simp only [walkLoop, hf, hs]

/-! ## C1 — what the alive flag really marks -/

/-- A ledger fixture: transaction 1 (one 500-sat output, spent by
transaction 2), transaction 2 (a 400-sat output and a 50-sat reward
output, unspent). -/
def cLedger : Nat → Option TxData
  | 1 => some ⟨[⟨500, none, none⟩], some 10, none, some 2⟩
  | 2 => some ⟨[⟨400, some 77, none⟩, ⟨50, some 88, none⟩], none, none, none⟩
  | _ => none

/-- **C1 (counterexample).** The claim as stated is false: tracing
`cLedger` from transaction 1 appends a generation-0 entry with
`alive == false` (its output was spent) and then appends a further entry
after it. -/
theorem C1_counterexample :
    ((walkLoop cLedger 5 [] 1 0).getD 0 dEntry).alive = false ∧
      2 ≤ (walkLoop cLedger 5 [] 1 0).length := by
  refine ⟨by decide, by decide⟩

/-- **C1 (amended).** In the scanner, `alive == false` marks an entry
whose output 0 has a known spender — exactly the entries that are
*followed* by a successor.  What is terminal is `alive == true`: if the
walk starts from entries that all have `alive == false`, then every
entry of the resulting trace except possibly the last has
`alive == false`; equivalently, once an entry with `alive == true` (no
observed successor) is appended the walk stops and nothing is ever
appended after it. -/
theorem C1_amended (ledger : Nat → Option TxData) (fuel : Nat)
    (L : List Entry) (cur gen : Nat) (h : ∀ e ∈ L, e.alive = false) :
    ∀ e ∈ (walkLoop ledger fuel L cur gen).dropLast, e.alive = false := by
  induction fuel generalizing L cur gen with
  | zero =>
    intro e he
    simp only [walkLoop] at he
    exact h e ((List.dropLast_sublist L).subset he)
  | succ n ih =>
    cases hf : ledger cur with
    | none =>
      intro e he
      simp only [walkLoop, hf] at he
      exact h e ((List.dropLast_sublist L).subset he)
    | some tx =>
      cases hs : tx.spent0 with
      | some nxt =>
        intro e he
        simp only [walkLoop, hf, hs] at he
        refine ih _ nxt (gen + 1) ?_ e he
        intro x hx
        rcases List.mem_append.1 hx with h' | h'
        · exact h x h'
        · rcases List.mem_singleton.1 h' with rfl
          rfl
      | none =>
        intro e he
        simp only [walkLoop, hf, hs] at he
        rw [List.dropLast_concat] at he
        exact h e he

/-- Witness for C1 (amended): a fresh walk over `cLedger` starts from the
empty (vacuously all-dead) lineage, and indeed only its last entry can
have `alive == true`. -/
theorem C1_amended_witness :
    (∀ e ∈ ([] : List Entry), e.alive = false) ∧
      ∀ e ∈ (walkLoop cLedger 5 [] 1 0).dropLast, e.alive = false :=
  ⟨by simp, C1_amended cLedger 5 [] 1 0 (by simp)⟩

/-! ## C8 — fee and reward of appended entries -/

/-- Field projections of `mkEntry` at generation 0: the spawn entry has
`reward = 0` (the reward loop is skipped) and `fee = 0` (`prevBalance` is
null). -/
theorem mkEntry_spawn (L : List Entry) (cur : Nat) (tx : TxData) :
    (mkEntry L cur 0 tx).fee = 0 ∧ (mkEntry L cur 0 tx).reward = 0 := by
  constructor <;> simp [mkEntry]

/-- Field identity of `mkEntry` at a positive generation with the prior
entry present in the lineage: `fee = prior.balance − balance − reward`. -/
theorem mkEntry_fee (L : List Entry) (cur gen : Nat) (tx : TxData)
    (hg : 0 < gen) (hp : gen - 1 < L.length) :
    (mkEntry L cur gen tx).fee =
      ((L.getD (gen - 1) dEntry).balance : Int) -
        (mkEntry L cur gen tx).balance - (mkEntry L cur gen tx).reward := by
  have hget : L.get? (gen - 1) = some (L.getD (gen - 1) dEntry) := by
    rw [List.getD_eq_getElem?_getD]
    cases hq : L[gen - 1]? with
    | none => exact absurd (List.getElem?_eq_none_iff.1 hq) (by omega)
    | some a => simp [List.get?_eq_getElem?, hq]
  simp only [mkEntry, hg, if_pos, hget]
  simp [hg]

/-- **C8.** Starting from a lineage aligned with its generation counter
(`L.length = gen`, as every walker-produced cache is), every entry the
walk appends at index `i` records generation `i`; the generation-0 entry
(no prior entry) has `fee = 0` and `reward = 0`; and every appended entry
with a prior entry records
`fee = prior.balance − balance − reward` against the prior entry actually
in the trace. -/
theorem C8_fee_reward (ledger : Nat → Option TxData) :
    ∀ (fuel : Nat) (L : List Entry) (cur gen : Nat), L.length = gen →
      ∀ i, gen ≤ i → i < (walkLoop ledger fuel L cur gen).length →
        (((walkLoop ledger fuel L cur gen).getD i dEntry).generation = i) ∧
        (i = 0 → ((walkLoop ledger fuel L cur gen).getD i dEntry).fee = 0 ∧
          ((walkLoop ledger fuel L cur gen).getD i dEntry).reward = 0) ∧
        (0 < i → ((walkLoop ledger fuel L cur gen).getD i dEntry).fee =
          (((walkLoop ledger fuel L cur gen).getD (i - 1) dEntry).balance : Int) -
            ((walkLoop ledger fuel L cur gen).getD i dEntry).balance -
            ((walkLoop ledger fuel L cur gen).getD i dEntry).reward) := by
  intro fuel
  induction fuel with
  | zero =>
    intro L cur gen halign i hge hlt
    simp only [walkLoop] at hlt
    omega
  | succ n ih =>
    intro L cur gen halign i hge hlt
    cases hf : ledger cur with
    | none =>
      simp only [walkLoop, hf] at hlt ⊢
      omega
    | some tx =>
      cases hs : tx.spent0 with
      | none =>
        simp only [walkLoop, hf, hs] at hlt ⊢
        have hi : i = gen := by
          simp only [List.length_append, List.length_singleton] at hlt
          omega
        subst hi
        have hgetI : (L ++ [mkEntry L cur i tx]).getD i dEntry = mkEntry L cur i tx := by
          rw [List.getD_append_right _ _ _ _ (by omega)]
          simp [halign]
        rw [hgetI]
        refine ⟨rfl, ?_, ?_⟩
        · rintro rfl
          exact mkEntry_spawn L cur tx
        · intro hpos
          have hgetP : (L ++ [mkEntry L cur i tx]).getD (i - 1) dEntry =
              L.getD (i - 1) dEntry :=
            List.getD_append _ _ _ _ (by omega)
          rw [hgetP]
          exact mkEntry_fee L cur i tx hpos (by omega)
      | some nxt =>
        have hL' : (L ++ [mkDead (mkEntry L cur gen tx) nxt]).length = gen + 1 := by
          simp [halign]
        simp only [walkLoop, hf, hs] at hlt ⊢
        rcases Nat.lt_or_ge i (gen + 1) with hlo | hhi
        · have hi : i = gen := by omega
          subst hi
          obtain ⟨rest, hr⟩ := walkLoop_prefix ledger n
            (L ++ [mkDead (mkEntry L cur i tx) nxt]) nxt (i + 1)
          rw [hr]
          have hgetI : ((L ++ [mkDead (mkEntry L cur i tx) nxt]) ++ rest).getD i dEntry =
              mkDead (mkEntry L cur i tx) nxt := by
            rw [List.getD_append _ _ _ _ (by simp [halign]),
              List.getD_append_right _ _ _ _ (by omega)]
            simp [halign]
          rw [hgetI]
          refine ⟨rfl, ?_, ?_⟩
          · rintro rfl
            exact mkEntry_spawn L cur tx
          · intro hpos
            have hgetP : ((L ++ [mkDead (mkEntry L cur i tx) nxt]) ++ rest).getD (i - 1) dEntry =
                L.getD (i - 1) dEntry := by
              rw [List.getD_append _ _ _ _ (by simp [halign]; omega),
                List.getD_append _ _ _ _ (by omega)]
            rw [hgetP]
            exact mkEntry_fee L cur i tx hpos (by omega)
        · exact ih _ nxt (gen + 1) hL' i hhi hlt

/-- Witness for C8: in the `cLedger` trace, the generation-1 entry's fee
is the prior balance (500) minus its balance (400) minus its reward (50),
i.e. 50. -/
theorem C8_fee_reward_witness :
    (([] : List Entry).length = 0) ∧ 1 < (walkLoop cLedger 5 [] 1 0).length ∧
      ((walkLoop cLedger 5 [] 1 0).getD 1 dEntry).generation = 1 ∧
      ((walkLoop cLedger 5 [] 1 0).getD 1 dEntry).fee =
        (((walkLoop cLedger 5 [] 1 0).getD 0 dEntry).balance : Int) -
          ((walkLoop cLedger 5 [] 1 0).getD 1 dEntry).balance -
          ((walkLoop cLedger 5 [] 1 0).getD 1 dEntry).reward := by
  have h := C8_fee_reward cLedger 5 [] 1 0 rfl 1 (by omega) (by decide)
  exact ⟨rfl, by decide, h.1, h.2.2 (by omega)⟩

/-! ## C9 — resumability -/

/-- The first fetched txid is the loop's starting reference. -/
theorem walkFetches_head (ledger : Nat → Option TxData) (fuel cur : Nat)
    (h : 0 < fuel) : (walkFetches ledger fuel cur).head? = some cur := by
  cases fuel with
  | zero => omega
  | succ n => rfl

/-- Every consecutive pair of fetched txids is linked by the ledger's
spend pointer: the walk only ever follows `spentBy` successors forward,
so it cannot fetch anything outside the chain of its starting point. -/
theorem walkFetches_chain (ledger : Nat → Option TxData) :
    ∀ (fuel cur : Nat),
      List.Chain' (fun a b => ∃ tx, ledger a = some tx ∧ tx.spent0 = some b)
        (walkFetches ledger fuel cur) := by
  intro fuel
  induction fuel with
  | zero => intro cur; simp [walkFetches]
  | succ n ih =>
    intro cur
    cases hf : ledger cur with
    | none => simp [walkFetches, hf]
    | some tx =>
      cases hs : tx.spent0 with
      | none => simp [walkFetches, hf, hs]
      | some nxt =>
        have hc := ih nxt
        rw [walkFetches]
        rw [hf]
        simp only [hs]
        rw [List.chain'_cons']
        refine ⟨?_, hc⟩
        intro b hb
        cases n with
        | zero => simp [walkFetches] at hb
        | succ m =>
          rw [walkFetches_head ledger (m + 1) nxt (by omega)] at hb
          cases hb
          exact ⟨tx, hf, hs⟩

/-- **C9.** Resuming from a persisted non-empty trace: if the last cached
entry has a known successor `s` (`spentBy` set), the whole cache is kept
as a prefix of the new trace and the resumed walk's fetches are exactly
the spend chain starting at `s` — the first fetch is `s` itself and each
further fetch is the previous transition's recorded spender, so no cached
entry is re-fetched.  If the last cached entry has no known successor,
it is discarded (`cached.dropLast` is the kept prefix) and re-derived:
the first fetch of the resumed walk is that entry's own txid. -/
theorem C9_resume (ledger : Nat → Option TxData) (fuel : Nat)
    (cached : List Entry) (spawnTxid : Nat) (last : Entry)
    (hlast : cached.getLast? = some last) :
    (∀ s, last.spentBy = some s →
      (∃ rest, traceLineage ledger fuel cached spawnTxid = cached ++ rest) ∧
      traceFetches ledger fuel cached spawnTxid = walkFetches ledger fuel s ∧
      (0 < fuel → (walkFetches ledger fuel s).head? = some s) ∧
      List.Chain' (fun a b => ∃ tx, ledger a = some tx ∧ tx.spent0 = some b)
        (walkFetches ledger fuel s)) ∧
    (last.spentBy = none → last.alive = true →
      (∃ rest, traceLineage ledger fuel cached spawnTxid = cached.dropLast ++ rest) ∧
      traceFetches ledger fuel cached spawnTxid = walkFetches ledger fuel last.txid ∧
      (0 < fuel → (walkFetches ledger fuel last.txid).head? = some last.txid)) := by
  constructor
  · intro s hs
    have hres : resumeInit cached spawnTxid = (cached, s, last.generation + 1) := by
      simp only [resumeInit, hlast, hs]
    refine ⟨?_, ?_, walkFetches_head ledger fuel s, walkFetches_chain ledger fuel s⟩
    · obtain ⟨rest, hr⟩ := walkLoop_prefix ledger fuel cached s (last.generation + 1)
      exact ⟨rest, by rw [traceLineage, hres]; exact hr⟩
    · rw [traceFetches, hres]
  · intro hs halive
    have hres : resumeInit cached spawnTxid =
        (cached.dropLast, last.txid, last.generation) := by
      simp only [resumeInit, hlast, hs, halive, if_true]
    refine ⟨?_, ?_, walkFetches_head ledger fuel last.txid⟩
    · obtain ⟨rest, hr⟩ := walkLoop_prefix ledger fuel cached.dropLast last.txid last.generation
      exact ⟨rest, by rw [traceLineage, hres]; exact hr⟩
    · rw [traceFetches, hres]

/-- The generation-0 entry the walker derives for transaction 1 of
`cLedger`, as it would be persisted (spent by transaction 2). -/
def eAx : Entry := ⟨0, 1, 500, .spawn, 0, 0, some 10, none, false, some 2, none⟩

/-- Witness for C9: resuming from the persisted one-entry trace `[eAx]`,
whose last entry is spent by transaction 2, keeps the cache as a prefix
and fetches exactly the chain from transaction 2. -/
theorem C9_resume_witness :
    ([eAx].getLast? = some eAx) ∧ eAx.spentBy = some 2 ∧
      (∃ rest, traceLineage cLedger 5 [eAx] 1 = [eAx] ++ rest) ∧
      traceFetches cLedger 5 [eAx] 1 = walkFetches cLedger 5 2 := by
  have h := (C9_resume cLedger 5 [eAx] 1 eAx rfl).1 2 rfl
  exact ⟨rfl, rfl, h.1, h.2.1⟩

end Org
